import Mathlib

/-!
Verification development for the VideoStats collector.

The program under study is a one-shot batch collector: it lists all videos
of a channel (several listing passes reconciled by count), fetches per-video
statistics in parallel (re-fetching while the returned count differs from the
input count), formats the records into a mapping keyed by video id, and
writes the pretty-printed JSON serialization to a primary path and a dated
archive path.

The embedding below models the two revisions of the collector (`run` for the
reconciling revision, `runOld` for the single-pass revision) as pure functions
over explicit environments: a listing environment `passes : Nat → List VideoRef`
giving the result of each full listing pass, and a stats environment
`Nat → String → Option VideoItem` giving the (possibly absent) record returned
by the per-video lookup on a given attempt. Loops that are syntactically
unbounded in the source are embedded with explicit fuel, and termination facts
are proved about the fuel semantics.
-/

/-- A video reference produced by the Lister: `{ id: string }`. -/
structure VideoRef where
  id : String
deriving Repr, DecidableEq

/-- A JSON-like value, enough to model the serialized snapshot: strings,
integers and objects (ordered key/value lists, as in JavaScript objects). -/
inductive Json where
  | str : String → Json
  | num : Int → Json
  | obj : List (String × Json) → Json
deriving Repr

/-- The `snippet` part of a video record returned by the stats lookup. -/
structure VideoSnippet where
  title : String
  description : String
  publishedAt : String
  thumbnails : Json
deriving Repr

/-- The `statistics` part of a video record (the API returns counts as
strings). -/
structure VideoStatistics where
  viewCount : String
  likeCount : String
deriving Repr

/-- One item of a `videos.list` response: id, snippet and statistics. -/
structure VideoItem where
  id : String
  snippet : VideoSnippet
  statistics : VideoStatistics
deriving Repr

/-- The body of a `videos.list` response: `items` may be missing. -/
structure VideosListResponse where
  items : Option (List VideoItem)
deriving Repr

/-- One formatted record of the snapshot, as built by `formatData`. -/
structure FormattedRecord where
  title : String
  description : String
  views : String
  likes : String
  published : String
  thumbnails : Json
deriving Repr

/-- The persisted artifact shape: a mapping from video id to formatted
record, in insertion order (a JavaScript object). -/
abbrev FormattedSnapshot := List (String × FormattedRecord)

/-- Indentation of `n` spaces, as produced by `JSON.stringify(_, null, 2)`. -/
def spaces (n : Nat) : String :=
  String.mk (List.replicate n ' ')

/-- JSON string escaping of one character (quote and backslash). -/
def escapeChar (c : Char) : String :=
  if c = '"' then "\\\"" else if c = '\\' then "\\\\" else String.singleton c

/-- JSON string literal: escaped characters between double quotes. -/
def escapeString (s : String) : String :=
  "\"" ++ String.join (s.data.map escapeChar) ++ "\""

mutual

/-- Pretty-printing serializer modelling `JSON.stringify(x, null, 2)` at the
given current indentation level. An empty object prints as `\x7b\x7d`; a
non-empty object opens a brace, prints each entry on its own line indented two
further spaces, and closes the brace at the current level. -/
def jsonSer : Nat → Json → String
  | _, .str s => escapeString s
  | _, .num n => toString n
  | i, .obj entries =>
    match entries with
    | [] => "\x7b\x7d"
    | _ => "\x7b\n" ++ jsonSerEntries i entries ++ "\n" ++ spaces i ++ "\x7d"

/-- Serializes the entries of a non-empty object, separated by `,\n`. -/
def jsonSerEntries : Nat → List (String × Json) → String
  | _, [] => ""
  | i, [(k, v)] => spaces (i + 2) ++ escapeString k ++ ": " ++ jsonSer (i + 2) v
  | i, (k, v) :: e :: rest =>
    spaces (i + 2) ++ escapeString k ++ ": " ++ jsonSer (i + 2) v ++ ",\n" ++
      jsonSerEntries i (e :: rest)

end

/-- The JSON value of one formatted record, with the field order used by
`formatData` (title, description, views, likes, published, thumbnails). -/
def recordToJson (r : FormattedRecord) : Json :=
  .obj [("title", .str r.title), ("description", .str r.description),
        ("views", .str r.views), ("likes", .str r.likes),
        ("published", .str r.published), ("thumbnails", r.thumbnails)]

/-- The JSON value of a whole snapshot: an object keyed by video id. -/
def snapshotToJson (data : FormattedSnapshot) : Json :=
  .obj (data.map fun p => (p.1, recordToJson p.2))

/-- The exact text written to disk: `JSON.stringify(data, null, 2)`. -/
def jsonStringify (data : FormattedSnapshot) : String :=
  jsonSer 0 (snapshotToJson data)

/-- Assignment `formattedData[k] = v` on a JavaScript object modelled as an
ordered key/value list: overwrite in place when the key exists, else append. -/
def setKey (m : FormattedSnapshot) (k : String) (v : FormattedRecord) :
    FormattedSnapshot :=
  if k ∈ m.map Prod.fst then
    m.map fun p => if p.1 = k then (k, v) else p
  else m ++ [(k, v)]

/-- The record stored for a present video by `formatData`. -/
def mkFormattedRecord (video : VideoItem) : FormattedRecord :=
  { title := video.snippet.title
    description := video.snippet.description
    views := video.statistics.viewCount
    likes := video.statistics.likeCount
    published := video.snippet.publishedAt
    thumbnails := video.snippet.thumbnails }

/-- One step of the `data.forEach((video) => ...)` loop of `formatData`:
a present record is stored under its id, an absent one is skipped. -/
def formatStep (formattedData : FormattedSnapshot) (video : Option VideoItem) :
    FormattedSnapshot :=
  match video with
  | some video => setKey formattedData video.id (mkFormattedRecord video)
  | none => formattedData

/-- `#formatData`: folds the forEach loop over the fetched stat records,
starting from the empty object. -/
def formatData (data : List (Option VideoItem)) : FormattedSnapshot :=
  data.foldl formatStep []

/-- `#getVideoStats` applied to a successful `videos.list` response:
`response.data.items?.[0]`, i.e. the first item when the item list is present
and non-empty, and an absent value otherwise. -/
def getVideoStats (response : VideosListResponse) : Option VideoItem :=
  response.items.bind List.head?

/-- The `replace(/[:.]/g, "_")` step of `getCurrentDateTimeUTC`. -/
def jsReplaceColonsDots (s : String) : String :=
  String.mk (s.data.map fun c => if c = ':' ∨ c = '.' then '_' else c)

/-- The `slice(0, 10)` step of `getCurrentDateTimeUTC`. -/
def jsSlice10 (s : String) : String :=
  String.mk (s.data.take 10)

/-- The step of `getCurrentDateTimeUTC` replacing every dash by a slash. -/
def jsReplaceDashes (s : String) : String :=
  String.mk (s.data.map fun c => if c = '-' then '/' else c)

/-- `getCurrentDateTimeUTC`, as a function of the current ISO timestamp
`now.toISOString()`: replace colons and dots by underscores, keep the first
ten characters (the date part), and replace dashes by slashes. -/
def getCurrentDateTimeUTC (isoNow : String) : String :=
  jsReplaceDashes (jsSlice10 (jsReplaceColonsDots isoNow))

/-- `writeData`: the two (path, contents) writes performed for a snapshot,
given the current ISO timestamp. Both paths receive the same pretty-printed
serialization of the data. -/
def writeData (data : FormattedSnapshot) (isoNow : String) :
    List (String × String) :=
  ["./published/videoStats.json",
   "./published/archive/" ++ getCurrentDateTimeUTC isoNow ++ ".json"].map
    fun filePath => (filePath, jsonStringify data)

/-- The id field of one item of a `search.list` response. -/
structure SearchItemId where
  videoId : String
deriving Repr

/-- One item of a `search.list` response. -/
structure SearchItem where
  id : SearchItemId
deriving Repr

/-- The body of a `search.list` response: `items` and `nextPageToken` may
both be missing. -/
structure SearchListResponse where
  items : Option (List SearchItem)
  nextPageToken : Option String
deriving Repr

/-- `#getAllVideos`: paginated listing over a search environment mapping a
page token to its response. The recursion of the source follows
`nextPageToken` whenever it is truthy (present and non-empty); since an
adversarial environment can chain tokens forever, the embedding carries fuel
and returns `none` on exhaustion. -/
def getAllVideos (api : String → SearchListResponse) :
    Nat → String → Option (List VideoRef)
  | 0, _ => none
  | fuel + 1, pageToken =>
    let data := api pageToken
    let videos := (data.items.map (List.map fun item =>
      VideoRef.mk item.id.videoId)).getD []
    match data.nextPageToken with
    | some tok =>
      if tok = "" then some videos
      else (getAllVideos api fuel tok).map fun nextVideos => videos ++ nextVideos
    | none => some videos

/-- One body of the reconciler retry loop up to the keep-the-longer update:
fetch `videos_placeholder` (the pass numbered `retrys + 2`) and keep it only
when it is strictly longer than the running best `videos`. -/
def reconcileStep (passes : Nat → List VideoRef) (retrys : Nat)
    (videos : List VideoRef) : List VideoRef :=
  if (passes (retrys + 2)).length > videos.length then passes (retrys + 2)
  else videos

/-- The retry loop of the listing reconciler in `run`. The loop variable
`retrys` counts completed additional passes; `fuel` is an embedding artifact
kept equal to `3 - retrys`, so that fuel exhaustion coincides with the source
condition `retrys < 3` turning false. Returns the selected list together with
the total number of additional listing passes fetched. -/
def reconcileFrom (passes : Nat → List VideoRef) (videos1 videos2 : List VideoRef) :
    Nat → Nat → List VideoRef → List VideoRef × Nat
  | 0, retrys, videos => (videos, retrys)
  | fuel + 1, retrys, videos =>
    if retrys < 3 ∧ videos1.length ≠ videos2.length then
      if (reconcileStep passes retrys videos).length = videos1.length ∨
          (reconcileStep passes retrys videos).length = videos2.length then
        (reconcileStep passes retrys videos, retrys + 1)
      else reconcileFrom passes videos1 videos2 fuel (retrys + 1)
        (reconcileStep passes retrys videos)
    else (videos, retrys)

/-- The listing reconciler of `run`: two initial passes, the longer one kept,
then the bounded retry loop. Returns the selected list together with the total
number of listing passes performed (two initial passes plus the additional
fetches of the retry loop). -/
def reconcile (passes : Nat → List VideoRef) : List VideoRef × Nat :=
  let videos1 := passes 0
  let videos2 := passes 1
  let videos := if videos1.length ≥ videos2.length then videos1 else videos2
  let r := reconcileFrom passes videos1 videos2 3 0 videos
  (r.1, 2 + r.2)

/-- The stats reconciliation loop of `run`:
`while (videos.length !== videoStats.length)` re-runs the full parallel
per-video fetch. `env attempts id` is the record returned for video `id` on
attempt number `attempts`. The loop is syntactically unbounded, so the
embedding carries fuel and returns `none` on exhaustion; it accumulates the
final `videoStats`, the attempt counter `videoStatsAttepts`, and the list of
video ids passed to the per-video fetch. -/
def statsLoopAux (env : Nat → String → Option VideoItem) (videos : List VideoRef) :
    Nat → List (Option VideoItem) → Nat → List String →
      Option (List (Option VideoItem) × Nat × List String)
  | 0, _, _, _ => none
  | fuel + 1, videoStats, attempts, calls =>
    if videos.length ≠ videoStats.length then
      statsLoopAux env videos fuel (videos.map fun video => env attempts video.id)
        (attempts + 1) (calls ++ videos.map VideoRef.id)
    else some (videoStats, attempts, calls)

/-- The stats reconciliation loop started as in the source
(`videoStats = []`, `videoStatsAttepts = 0`). Fuel 2 provably suffices
(`statsLoopAux_spec`), so the defaulted value is never taken. -/
def statsLoop (env : Nat → String → Option VideoItem) (videos : List VideoRef) :
    List (Option VideoItem) × Nat × List String :=
  (statsLoopAux env videos 2 [] 0 []).getD ([], 0, [])

/-- The observable outcome of one invocation of the reconciling `run`. -/
structure RunResult where
  videos : List VideoRef
  listingPasses : Nat
  videoStats : List (Option VideoItem)
  videoStatsAttempts : Nat
  statCalls : List String
  formattedStats : FormattedSnapshot
  writes : List (String × String)
deriving Repr

/-- The reconciling revision of `run`: list with reconciliation, loop the
stats fetch until counts agree, format, and write. The environments are the
per-pass listing results `passes` and the per-attempt `videos.list` responses
`videosApi`; each per-video fetch goes through `getVideoStats`. -/
def run (passes : Nat → List VideoRef)
    (videosApi : Nat → String → VideosListResponse) (isoNow : String) : RunResult :=
  let r := reconcile passes
  let videos := r.1
  let s := statsLoop (fun attempts vid => getVideoStats (videosApi attempts vid)) videos
  let formattedStats := formatData s.1
  { videos := videos
    listingPasses := r.2
    videoStats := s.1
    videoStatsAttempts := s.2.1
    statCalls := s.2.2
    formattedStats := formattedStats
    writes := writeData formattedStats isoNow }

/-- The observable outcome of one invocation of the single-pass `run`. -/
structure RunOldResult where
  videoStats : List (Option VideoItem)
  formattedStats : FormattedSnapshot
  writes : List (String × String)
deriving Repr

/-- The earlier revision of `run` (single listing pass, no reconciliation):
fetch stats once for the listed videos, format, and write. `videos` is the
result of its one listing pass and `videosApi` its `videos.list` environment. -/
def runOld (videos : List VideoRef) (videosApi : String → VideosListResponse)
    (isoNow : String) : RunOldResult :=
  let videoStats := videos.map fun video => getVideoStats (videosApi video.id)
  let formattedStats := formatData videoStats
  { videoStats := videoStats
    formattedStats := formattedStats
    writes := writeData formattedStats isoNow }

/-- A listing pass with `n` distinct video ids, for concrete scenarios. -/
def mkVideos (n : Nat) : List VideoRef :=
  (List.range n).map fun i => VideoRef.mk (toString i)

/-- The listing environment of the `[10, 12, 11, 12]` reconciler scenario:
pass 1 returns 10 videos, pass 2 returns 12, the additional passes return 11
and then 12. -/
def c1Passes : Nat → List VideoRef :=
  fun i => mkVideos ([10, 12, 11, 12].getD i 0)


/-! Helper lemmas about the stats reconciliation loop. -/

/-- From the source's initial state, the stats loop finishes within fuel 2:
the first attempt maps the per-video fetch over the input ids, which yields
exactly one (possibly absent) record per id, so the count check passes right
afterwards (immediately, for an empty input). -/
theorem statsLoopAux_spec (env : Nat → String → Option VideoItem)
    (videos : List VideoRef) (fuel : Nat) (h : 2 ≤ fuel) :
    statsLoopAux env videos fuel [] 0 []
      = some (videos.map (fun video => env 0 video.id),
          (if videos = [] then 0 else 1), videos.map VideoRef.id) := by
  obtain ⟨k, rfl⟩ : ∃ k, fuel = k + 2 := ⟨fuel - 2, by omega⟩
  cases videos with
  | nil => simp [statsLoopAux]
  | cons v vs => simp [statsLoopAux]

/-- Value of the stats loop from the source's initial state. -/
theorem statsLoop_eq (env : Nat → String → Option VideoItem)
    (videos : List VideoRef) :
    statsLoop env videos
      = (videos.map (fun video => env 0 video.id),
         (if videos = [] then 0 else 1), videos.map VideoRef.id) := by
  simp [statsLoop, statsLoopAux_spec env videos 2 (le_refl 2)]

/-! Helper lemmas about the listing reconciler. -/

/-- When the two initial passes agree in count, the retry loop is never
entered and pass 1 is kept. -/
theorem reconcile_of_eq (passes : Nat → List VideoRef)
    (h : (passes 0).length = (passes 1).length) :
    reconcile passes = (passes 0, 2) := by
  simp [reconcile, reconcileFrom, h]

/-- The keep-the-longer update never shrinks the running best. -/
theorem reconcileStep_le (passes : Nat → List VideoRef) (retrys : Nat)
    (videos : List VideoRef) :
    videos.length ≤ (reconcileStep passes retrys videos).length := by
  unfold reconcileStep; split <;> omega

/-- The freshly fetched pass never exceeds the updated running best. -/
theorem reconcileStep_pass_le (passes : Nat → List VideoRef) (retrys : Nat)
    (videos : List VideoRef) :
    (passes (retrys + 2)).length ≤ (reconcileStep passes retrys videos).length := by
  unfold reconcileStep; split <;> omega

/-- The keep-the-longer update returns either the old best or the fresh pass. -/
theorem reconcileStep_eq_or (passes : Nat → List VideoRef) (retrys : Nat)
    (videos : List VideoRef) :
    reconcileStep passes retrys videos = videos ∨
      reconcileStep passes retrys videos = passes (retrys + 2) := by
  unfold reconcileStep; split
  · exact Or.inr rfl
  · exact Or.inl rfl

/-- Invariant of the reconciler retry loop: starting from a running best that
is one of the passes already performed and dominates all of them in count, the
loop returns a best with the same two properties relative to all passes
performed by the end, and the count of completed additional fetches never
decreases. -/
theorem reconcileFrom_spec (passes : Nat → List VideoRef) :
    ∀ fuel retrys videos,
      (∃ j, j < retrys + 2 ∧ videos = passes j) →
      (∀ i, i < retrys + 2 → (passes i).length ≤ videos.length) →
      retrys ≤ (reconcileFrom passes (passes 0) (passes 1) fuel retrys videos).2 ∧
      (∃ j, j < (reconcileFrom passes (passes 0) (passes 1) fuel retrys videos).2 + 2 ∧
        (reconcileFrom passes (passes 0) (passes 1) fuel retrys videos).1 = passes j) ∧
      (∀ i, i < (reconcileFrom passes (passes 0) (passes 1) fuel retrys videos).2 + 2 →
        (passes i).length ≤
          (reconcileFrom passes (passes 0) (passes 1) fuel retrys videos).1.length) := by
  intro fuel
  induction fuel with
  | zero =>
    intro retrys videos hj hb
    exact ⟨le_refl _, hj, hb⟩
  | succ fuel ih =>
    intro retrys videos hj hb
    by_cases hc : retrys < 3 ∧ (passes 0).length ≠ (passes 1).length
    · have hle := reconcileStep_le passes retrys videos
      have hple := reconcileStep_pass_le passes retrys videos
      have hj' : ∃ j, j < retrys + 1 + 2 ∧
          reconcileStep passes retrys videos = passes j := by
        rcases reconcileStep_eq_or passes retrys videos with he | he
        · obtain ⟨j, hjlt, hjeq⟩ := hj
          exact ⟨j, by omega, he.trans hjeq⟩
        · exact ⟨retrys + 2, by omega, he⟩
      have hb' : ∀ i, i < retrys + 1 + 2 →
          (passes i).length ≤ (reconcileStep passes retrys videos).length := by
        intro i hi
        by_cases hi2 : i < retrys + 2
        · exact le_trans (hb i hi2) hle
        · have hieq : i = retrys + 2 := by omega
          subst hieq; exact hple
      rw [reconcileFrom, if_pos hc]
      by_cases hbrk : (reconcileStep passes retrys videos).length = (passes 0).length ∨
          (reconcileStep passes retrys videos).length = (passes 1).length
      · rw [if_pos hbrk]
        exact ⟨by omega, hj', hb'⟩
      · rw [if_neg hbrk]
        obtain ⟨h1, h2, h3⟩ := ih (retrys + 1) (reconcileStep passes retrys videos) hj' hb'
        exact ⟨by omega, h2, h3⟩
    · rw [reconcileFrom, if_neg hc]
      exact ⟨le_refl _, hj, hb⟩

/-- Unfolding of `reconcile` to its retry-loop call. -/
theorem reconcile_def (passes : Nat → List VideoRef) :
    reconcile passes
      = ((reconcileFrom passes (passes 0) (passes 1) 3 0
            (if (passes 0).length ≥ (passes 1).length then passes 0 else passes 1)).1,
         2 + (reconcileFrom passes (passes 0) (passes 1) 3 0
            (if (passes 0).length ≥ (passes 1).length then passes 0 else passes 1)).2) :=
  rfl

/-- The reconciler always selects the result of one of the passes it actually
performed, and that result has the maximum count among all of them. -/
theorem reconcile_spec (passes : Nat → List VideoRef) :
    (∃ j, j < (reconcile passes).2 ∧ (reconcile passes).1 = passes j) ∧
    (∀ i, i < (reconcile passes).2 → (passes i).length ≤ (reconcile passes).1.length) := by
  have hj : ∃ j, j < 0 + 2 ∧
      (if (passes 0).length ≥ (passes 1).length then passes 0 else passes 1) = passes j := by
    split
    · exact ⟨0, by omega, rfl⟩
    · exact ⟨1, by omega, rfl⟩
  have hb : ∀ i, i < 0 + 2 → (passes i).length ≤
      (if (passes 0).length ≥ (passes 1).length then passes 0 else passes 1).length := by
    intro i hi
    have hi01 : i = 0 ∨ i = 1 := by omega
    split
    case isTrue hge => rcases hi01 with rfl | rfl
                       · exact le_refl _
                       · exact hge
    case isFalse hlt => rcases hi01 with rfl | rfl
                        · omega
                        · exact le_refl _
  obtain ⟨-, h2, h3⟩ := reconcileFrom_spec passes 3 0 _ hj hb
  rw [reconcile_def]
  constructor
  · obtain ⟨j, hjlt, hjeq⟩ := h2
    exact ⟨j, by omega, hjeq⟩
  · intro i hi
    exact h3 i (by omega)

/-! Helper lemmas about the formatter. -/

/-- Keys after a JavaScript-object assignment: unchanged when the key was
already present, extended by the key otherwise. -/
theorem setKey_keys (m : FormattedSnapshot) (k : String) (v : FormattedRecord) :
    (setKey m k v).map Prod.fst
      = if k ∈ m.map Prod.fst then m.map Prod.fst else m.map Prod.fst ++ [k] := by
  by_cases hk : k ∈ m.map Prod.fst
  · rw [setKey, if_pos hk, if_pos hk, List.map_map]
    apply List.map_congr_left
    intro p _
    by_cases hp : p.1 = k <;> simp [hp]
  · rw [setKey, if_neg hk, if_neg hk]
    simp

/-- A JavaScript-object assignment preserves uniqueness of keys. -/
theorem keys_nodup_setKey (m : FormattedSnapshot) (k : String) (v : FormattedRecord)
    (h : (m.map Prod.fst).Nodup) : ((setKey m k v).map Prod.fst).Nodup := by
  rw [setKey_keys]
  split
  · exact h
  · case isFalse hk => simp [List.nodup_append, h, hk]

/-- A key present after a JavaScript-object assignment was present before or
is the assigned key. -/
theorem mem_keys_setKey (m : FormattedSnapshot) (k : String) (v : FormattedRecord)
    (k' : String) (h : k' ∈ (setKey m k v).map Prod.fst) :
    k' ∈ m.map Prod.fst ∨ k' = k := by
  rw [setKey_keys] at h
  split at h
  · exact Or.inl h
  · rcases List.mem_append.1 h with h1 | h1
    · exact Or.inl h1
    · simp only [List.mem_singleton] at h1
      exact Or.inr h1

/-- The forEach fold of `formatData` preserves uniqueness of keys. -/
theorem formatData_aux_nodup (data : List (Option VideoItem)) :
    ∀ acc : FormattedSnapshot, (acc.map Prod.fst).Nodup →
      ((data.foldl formatStep acc).map Prod.fst).Nodup := by
  induction data with
  | nil => intro acc h; simpa using h
  | cons o rest ih =>
    intro acc h
    rw [List.foldl_cons]
    apply ih
    cases o with
    | none => exact h
    | some v => exact keys_nodup_setKey _ _ _ h

/-- A key present after the forEach fold of `formatData` was present in the
accumulator or is the id of some present input record. -/
theorem mem_keys_formatData_aux (data : List (Option VideoItem)) :
    ∀ (acc : FormattedSnapshot) (k : String),
      k ∈ (data.foldl formatStep acc).map Prod.fst →
      k ∈ acc.map Prod.fst ∨ ∃ item, some item ∈ data ∧ item.id = k := by
  induction data with
  | nil => intro acc k h; exact Or.inl (by simpa using h)
  | cons o rest ih =>
    intro acc k h
    rw [List.foldl_cons] at h
    rcases ih (formatStep acc o) k h with h' | ⟨item, hmem, hid⟩
    · cases o with
      | none => exact Or.inl h'
      | some v =>
        rcases mem_keys_setKey _ _ _ _ h' with h'' | rfl
        · exact Or.inl h''
        · exact Or.inr ⟨v, by simp, rfl⟩
    · exact Or.inr ⟨item, by simp [hmem], hid⟩

/-- The keys of a formatted snapshot are unique. -/
theorem formatData_keys_nodup (data : List (Option VideoItem)) :
    ((formatData data).map Prod.fst).Nodup :=
  formatData_aux_nodup data [] (by simp)

/-- Every key of a formatted snapshot is the id of some present input
record. -/
theorem mem_keys_formatData (data : List (Option VideoItem)) (k : String)
    (h : k ∈ (formatData data).map Prod.fst) :
    ∃ item, some item ∈ data ∧ item.id = k := by
  rcases mem_keys_formatData_aux data [] k h with h' | h'
  · simp at h'
  · exact h'

/-! Unfolding lemmas for the observable fields of `run` and `runOld`, and the
serialization of the empty snapshot. -/

/-- The selected video list of `run` is the reconciler's result. -/
theorem run_videos (passes : Nat → List VideoRef)
    (videosApi : Nat → String → VideosListResponse) (isoNow : String) :
    (run passes videosApi isoNow).videos = (reconcile passes).1 := rfl

/-- The listing-pass count of `run` is the reconciler's pass count. -/
theorem run_listingPasses (passes : Nat → List VideoRef)
    (videosApi : Nat → String → VideosListResponse) (isoNow : String) :
    (run passes videosApi isoNow).listingPasses = (reconcile passes).2 := rfl

/-- The per-video fetch calls of `run` are those of the stats loop. -/
theorem run_statCalls (passes : Nat → List VideoRef)
    (videosApi : Nat → String → VideosListResponse) (isoNow : String) :
    (run passes videosApi isoNow).statCalls
      = (statsLoop (fun attempts vid => getVideoStats (videosApi attempts vid))
          (reconcile passes).1).2.2 := rfl

/-- The snapshot of `run` formats the stats loop's final records. -/
theorem run_formattedStats (passes : Nat → List VideoRef)
    (videosApi : Nat → String → VideosListResponse) (isoNow : String) :
    (run passes videosApi isoNow).formattedStats
      = formatData (statsLoop (fun attempts vid => getVideoStats (videosApi attempts vid))
          (reconcile passes).1).1 := rfl

/-- The writes of `run` persist its snapshot. -/
theorem run_writes (passes : Nat → List VideoRef)
    (videosApi : Nat → String → VideosListResponse) (isoNow : String) :
    (run passes videosApi isoNow).writes
      = writeData (run passes videosApi isoNow).formattedStats isoNow := rfl

/-- The snapshot of `runOld` formats one round of per-video fetches. -/
theorem runOld_formattedStats (videos : List VideoRef)
    (videosApi : String → VideosListResponse) (isoNow : String) :
    (runOld videos videosApi isoNow).formattedStats
      = formatData (videos.map fun video => getVideoStats (videosApi video.id)) := rfl

/-- The writes of `runOld` persist its snapshot. -/
theorem runOld_writes (videos : List VideoRef)
    (videosApi : String → VideosListResponse) (isoNow : String) :
    (runOld videos videosApi isoNow).writes
      = writeData (runOld videos videosApi isoNow).formattedStats isoNow := rfl

/-- The empty snapshot serializes to a bare pair of braces. -/
theorem jsonStringify_nil : jsonStringify [] = "\x7b\x7d" := by
  simp [jsonStringify, snapshotToJson, jsonSer]

/-! The claims. -/

/-- C1 (counterexample): on the listing scenario with pass counts
[10, 12, 11, 12], the reconciler does not perform four listing passes. -/
theorem C1_counterexample : (reconcile c1Passes).2 ≠ 4 := by decide

/-- C1 (amended): on the listing scenario with pass counts [10, 12, 11, 12],
reconciliation performs three listing passes in total — after the initial
passes return counts 10 and 12, the running best (count 12) already matches
the second pass's count, so the loop terminates at the end of the first
additional pass (which returned count 11) — and the selected video list is
the second pass's result, with count 12. -/
theorem C1_amended :
    (reconcile c1Passes).2 = 3 ∧ (reconcile c1Passes).1 = c1Passes 1 ∧
      (reconcile c1Passes).1.length = 12 := by decide

/-- C2 (counterexample): no environment of per-attempt per-video fetch
results makes the stats reconciliation loop of `run` diverge — there is no
run in which the returned-record count persistently mismatches the input-id
count, because each fetch attempt returns exactly one (possibly absent)
record per input id. -/
theorem C2_counterexample :
    ¬ ∃ (env : Nat → String → Option VideoItem) (videos : List VideoRef),
        ∀ fuel, statsLoopAux env videos fuel [] 0 [] = none := by
  rintro ⟨env, videos, h⟩
  have h2 := h 2
  rw [statsLoopAux_spec env videos 2 (le_refl 2)] at h2
  exact Option.noConfusion h2

/-- C2 (amended): the stats reconciliation loop of `run` repeats the full
parallel per-video fetch until the returned-record count equals the input-id
count and carries no attempt cap, but since each attempt returns exactly one
(possibly absent) record per input id the counts agree right after the first
attempt: under any environment and any fuel at least 2, the loop terminates
with one fetch attempt for a non-empty input and zero for an empty one. -/
theorem C2_amended (env : Nat → String → Option VideoItem) (videos : List VideoRef)
    (fuel : Nat) (h : 2 ≤ fuel) :
    statsLoopAux env videos fuel [] 0 [] = some (statsLoop env videos) ∧
      (statsLoop env videos).2.1 = (if videos = [] then 0 else 1) := by
  rw [statsLoopAux_spec env videos fuel h, statsLoop_eq]
  exact ⟨rfl, rfl⟩

/-- C2 (witness): the amended statement applied to a concrete environment
that always reports an absent record for the single listed video. -/
theorem C2_witness :
    2 ≤ 2 ∧
      (statsLoopAux (fun _ _ => none) [⟨"a"⟩] 2 [] 0 []
          = some (statsLoop (fun _ _ => none) [⟨"a"⟩]) ∧
        (statsLoop (fun _ _ => none) [⟨"a"⟩]).2.1
          = (if ([⟨"a"⟩] : List VideoRef) = [] then 0 else 1)) :=
  ⟨le_refl 2, C2_amended (fun _ _ => none) [⟨"a"⟩] 2 (le_refl 2)⟩

/-- C3: whenever the two initial listing passes agree in count, the
reconciler performs exactly two listing passes, never enters the retry loop,
and accepts one of the two passes' results. -/
theorem C3 (passes : Nat → List VideoRef)
    (h : (passes 0).length = (passes 1).length) :
    (reconcile passes).2 = 2 ∧
      ((reconcile passes).1 = passes 0 ∨ (reconcile passes).1 = passes 1) := by
  rw [reconcile_of_eq passes h]
  exact ⟨rfl, Or.inl rfl⟩

/-- C3 (witness): the reconciler on an environment whose passes all return
the same five videos. -/
theorem C3_witness :
    ((fun _ => mkVideos 5) 0).length = ((fun _ => mkVideos 5) 1).length ∧
      ((reconcile (fun _ => mkVideos 5)).2 = 2 ∧
        ((reconcile (fun _ => mkVideos 5)).1 = (fun _ => mkVideos 5) 0 ∨
          (reconcile (fun _ => mkVideos 5)).1 = (fun _ => mkVideos 5) 1)) :=
  ⟨rfl, C3 (fun _ => mkVideos 5) rfl⟩

/-- C4: for every sequence of listing-pass results whose first two passes
disagree in count, the reconciler never fails: it selects the result of one
of the listing passes it actually performed, and that result has the maximum
count among all passes performed. -/
theorem C4 (passes : Nat → List VideoRef)
    (h : (passes 0).length ≠ (passes 1).length) :
    (∃ j, j < (reconcile passes).2 ∧ (reconcile passes).1 = passes j) ∧
      (∀ i, i < (reconcile passes).2 →
        (passes i).length ≤ (reconcile passes).1.length) :=
  reconcile_spec passes

/-- C4 (witness): the maximality property on the concrete [10, 12, 11, 12]
scenario, whose first two passes disagree in count. -/
theorem C4_witness :
    (c1Passes 0).length ≠ (c1Passes 1).length ∧
      ((∃ j, j < (reconcile c1Passes).2 ∧ (reconcile c1Passes).1 = c1Passes j) ∧
        (∀ i, i < (reconcile c1Passes).2 →
          (c1Passes i).length ≤ (reconcile c1Passes).1.length)) :=
  ⟨by decide, C4 c1Passes (by decide)⟩

/-- C5: in any run whose per-video lookups return records carrying the id
that was queried, every key of the produced snapshot is the id of some
VideoRef of the video list the run selected from its listing passes — no key
is invented — and the keys of the mapping are unique. -/
theorem C5 (passes : Nat → List VideoRef)
    (videosApi : Nat → String → VideosListResponse) (isoNow : String)
    (hc : ∀ attempts vid item,
      getVideoStats (videosApi attempts vid) = some item → item.id = vid) :
    (∀ k ∈ (run passes videosApi isoNow).formattedStats.map Prod.fst,
        ∃ v ∈ (run passes videosApi isoNow).videos, v.id = k) ∧
      ((run passes videosApi isoNow).formattedStats.map Prod.fst).Nodup := by
  rw [run_formattedStats, run_videos]
  constructor
  · intro k hk
    obtain ⟨item, hmem, hid⟩ := mem_keys_formatData _ k hk
    rw [statsLoop_eq] at hmem
    simp only [List.mem_map] at hmem
    obtain ⟨v, hv, hveq⟩ := hmem
    have hvid := hc 0 v.id item hveq
    exact ⟨v, hv, by rw [← hid, hvid]⟩
  · exact formatData_keys_nodup _

/-- C5 (witness): a run over two listed videos with a lookup environment
answering each query with a record named by the queried id. -/
theorem C5_witness :
    (∀ attempts vid item,
        getVideoStats ((fun (_ : Nat) (v : String) =>
            (⟨some [⟨v, ⟨"t", "d", "p", Json.obj []⟩, ⟨"1", "2"⟩⟩]⟩ : VideosListResponse))
          attempts vid) = some item → item.id = vid) ∧
      ((∀ k ∈ (run (fun _ => mkVideos 2)
            (fun _ v => ⟨some [⟨v, ⟨"t", "d", "p", Json.obj []⟩, ⟨"1", "2"⟩⟩]⟩)
            "2026-10-11T00:00:00.000Z").formattedStats.map Prod.fst,
          ∃ w ∈ (run (fun _ => mkVideos 2)
            (fun _ v => ⟨some [⟨v, ⟨"t", "d", "p", Json.obj []⟩, ⟨"1", "2"⟩⟩]⟩)
            "2026-10-11T00:00:00.000Z").videos, w.id = k) ∧
        ((run (fun _ => mkVideos 2)
            (fun _ v => ⟨some [⟨v, ⟨"t", "d", "p", Json.obj []⟩, ⟨"1", "2"⟩⟩]⟩)
            "2026-10-11T00:00:00.000Z").formattedStats.map Prod.fst).Nodup) := by
  have hc : ∀ (attempts : Nat) (vid : String) (item : VideoItem),
      getVideoStats ((fun (_ : Nat) (v : String) =>
          (⟨some [⟨v, ⟨"t", "d", "p", Json.obj []⟩, ⟨"1", "2"⟩⟩]⟩ : VideosListResponse))
        attempts vid) = some item → item.id = vid := by
    intro attempts vid item h
    injection h with h
    rw [← h]
  exact ⟨hc, C5 _ _ _ hc⟩

/-- C6: for a channel with 0 videos — a listing environment whose first page
has no items and no continuation, so that every listing pass returns the
empty list — the Lister returns the empty list, the run selects the empty
video list, the per-video Stat Fetcher is never invoked, the Formatter
returns the empty mapping, and the Persister writes the serialization of the
empty mapping to both the primary path and the dated archive path. -/
theorem C6 (api : String → SearchListResponse) (passes : Nat → List VideoRef)
    (videosApi : Nat → String → VideosListResponse) (iso : String) (fuel : Nat)
    (hapi : (api "").items = some [] ∧ (api "").nextPageToken = none)
    (hpasses : ∀ i, passes i = []) :
    getAllVideos api (fuel + 1) "" = some []
    ∧ (run passes videosApi iso).videos = []
    ∧ (run passes videosApi iso).statCalls = []
    ∧ (run passes videosApi iso).formattedStats = []
    ∧ (run passes videosApi iso).writes
        = [("./published/videoStats.json", "\x7b\x7d"),
           ("./published/archive/" ++ getCurrentDateTimeUTC iso ++ ".json",
            "\x7b\x7d")] := by
  have hrec : reconcile passes = (passes 0, 2) :=
    reconcile_of_eq passes (by rw [hpasses 0, hpasses 1])
  have hv : (reconcile passes).1 = [] := by rw [hrec]; exact hpasses 0
  refine ⟨?_, ?_, ?_, ?_, ?_⟩
  · simp [getAllVideos, hapi.1, hapi.2]
  · rw [run_videos, hv]
  · rw [run_statCalls, hv, statsLoop_eq]
    rfl
  · rw [run_formattedStats, hv, statsLoop_eq]
    rfl
  · rw [run_writes, run_formattedStats, hv, statsLoop_eq]
    simp [writeData, formatData, jsonStringify_nil]

/-- C6 (witness): the zero-video scenario on concrete environments. -/
theorem C6_witness :
    (((fun (_ : String) => (⟨some [], none⟩ : SearchListResponse)) "").items = some []
        ∧ ((fun (_ : String) =>
            (⟨some [], none⟩ : SearchListResponse)) "").nextPageToken = none)
    ∧ (∀ i : Nat, (fun (_ : Nat) => ([] : List VideoRef)) i = [])
    ∧ (getAllVideos (fun _ => ⟨some [], none⟩) (0 + 1) "" = some []
      ∧ (run (fun _ => []) (fun _ _ => ⟨none⟩) "2026-10-11T00:00:00.000Z").videos = []
      ∧ (run (fun _ => []) (fun _ _ => ⟨none⟩) "2026-10-11T00:00:00.000Z").statCalls = []
      ∧ (run (fun _ => []) (fun _ _ => ⟨none⟩)
            "2026-10-11T00:00:00.000Z").formattedStats = []
      ∧ (run (fun _ => []) (fun _ _ => ⟨none⟩) "2026-10-11T00:00:00.000Z").writes
          = [("./published/videoStats.json", "\x7b\x7d"),
             ("./published/archive/"
                ++ getCurrentDateTimeUTC "2026-10-11T00:00:00.000Z" ++ ".json",
              "\x7b\x7d")]) :=
  ⟨⟨rfl, rfl⟩, fun _ => rfl,
    C6 (fun _ => ⟨some [], none⟩) (fun _ => []) (fun _ _ => ⟨none⟩)
      "2026-10-11T00:00:00.000Z" 0 ⟨rfl, rfl⟩ (fun _ => rfl)⟩

/-- C7: for any snapshots and any two current timestamps sharing the same
UTC date (the same first ten characters of the ISO string), the Persister
produces the same pair of paths — the archive path is a deterministic
function of the date — and the two writes of one invocation carry
byte-identical serialized contents. -/
theorem C7 (data data' : FormattedSnapshot) (iso iso' : String)
    (hdate : iso.data.take 10 = iso'.data.take 10) :
    (writeData data iso).map Prod.fst = (writeData data' iso').map Prod.fst ∧
      ∃ s, (writeData data iso).map Prod.snd = [s, s] := by
  have h1 : (iso.data.map fun c => if c = ':' ∨ c = '.' then '_' else c).take 10
      = (iso'.data.map fun c => if c = ':' ∨ c = '.' then '_' else c).take 10 := by
    rw [← List.map_take, ← List.map_take, hdate]
  have hpath : getCurrentDateTimeUTC iso = getCurrentDateTimeUTC iso' := by
    show String.mk (((iso.data.map fun c => if c = ':' ∨ c = '.' then '_' else c).take 10).map
        fun c => if c = '-' then '/' else c)
      = String.mk (((iso'.data.map fun c => if c = ':' ∨ c = '.' then '_' else c).take 10).map
        fun c => if c = '-' then '/' else c)
    rw [h1]
  constructor
  · simp [writeData, hpath]
  · exact ⟨jsonStringify data, by simp [writeData]⟩

/-- C7 (witness): two timestamps of the same day, at different times. -/
theorem C7_witness :
    ("2026-10-11T00:00:00.000Z" : String).data.take 10
        = ("2026-10-11T11:22:33.444Z" : String).data.take 10 ∧
      ((writeData [] "2026-10-11T00:00:00.000Z").map Prod.fst
          = (writeData [] "2026-10-11T11:22:33.444Z").map Prod.fst ∧
        ∃ s, (writeData [] "2026-10-11T00:00:00.000Z").map Prod.snd = [s, s]) :=
  ⟨by decide, C7 [] [] _ _ (by decide)⟩

/-- C8: formatting an input list of the shape [recordA, absent, recordB],
with the two present records carrying distinct ids, silently skips the
absent entry and yields a snapshot with exactly the two keys given by the
present records' ids, in order. -/
theorem C8 (a b : VideoItem) (h : a.id ≠ b.id) :
    (formatData [some a, none, some b]).map Prod.fst = [a.id, b.id] := by
  have hba : b.id ≠ a.id := Ne.symm h
  simp [formatData, formatStep, setKey, hba]

/-- C8 (witness): two concrete present records around an absent entry. -/
theorem C8_witness :
    (⟨"a", ⟨"ta", "da", "pa", Json.obj []⟩, ⟨"1", "2"⟩⟩ : VideoItem).id
        ≠ (⟨"b", ⟨"tb", "db", "pb", Json.obj []⟩, ⟨"3", "4"⟩⟩ : VideoItem).id ∧
      (formatData [some ⟨"a", ⟨"ta", "da", "pa", Json.obj []⟩, ⟨"1", "2"⟩⟩, none,
          some ⟨"b", ⟨"tb", "db", "pb", Json.obj []⟩, ⟨"3", "4"⟩⟩]).map Prod.fst
        = [(⟨"a", ⟨"ta", "da", "pa", Json.obj []⟩, ⟨"1", "2"⟩⟩ : VideoItem).id,
           (⟨"b", ⟨"tb", "db", "pb", Json.obj []⟩, ⟨"3", "4"⟩⟩ : VideoItem).id] :=
  ⟨by decide, C8 _ _ (by decide)⟩

/-- C9: when the per-video lookup succeeds but its response carries no item
(an empty or missing item list), the Stat Fetcher resolves to an absent
value rather than failing. -/
theorem C9 (response : VideosListResponse)
    (h : response.items = none ∨ response.items = some []) :
    getVideoStats response = none := by
  rcases h with h | h <;> simp [getVideoStats, h]

/-- C9 (witness): a response with a missing item list. -/
theorem C9_witness :
    ((⟨none⟩ : VideosListResponse).items = none
        ∨ (⟨none⟩ : VideosListResponse).items = some []) ∧
      getVideoStats ⟨none⟩ = none :=
  ⟨Or.inl rfl, C9 ⟨none⟩ (Or.inl rfl)⟩

/-- C10: under a deterministic API model — every listing pass returns the
same list and the per-video lookup environment is fixed across attempts and
always returns a present record — the single-pass revision and the
reconciling revision produce identical snapshot content and identical
writes to disk. -/
theorem C10 (videos : List VideoRef) (api : String → VideosListResponse)
    (iso : String) (hpresent : ∀ vid, getVideoStats (api vid) ≠ none) :
    (runOld videos api iso).formattedStats
        = (run (fun _ => videos) (fun _ => api) iso).formattedStats ∧
      (runOld videos api iso).writes
        = (run (fun _ => videos) (fun _ => api) iso).writes := by
  have hrec : reconcile (fun _ => videos) = (videos, 2) := reconcile_of_eq _ rfl
  have h3 : formatData ((statsLoop
        (fun attempts vid => getVideoStats ((fun _ => api) attempts vid))
        (reconcile (fun _ => videos)).1).1)
      = formatData (videos.map fun video => getVideoStats (api video.id)) := by
    rw [hrec, statsLoop_eq]
  constructor
  · rw [runOld_formattedStats, run_formattedStats, h3]
  · rw [runOld_writes, run_writes, runOld_formattedStats, run_formattedStats, h3]

/-- C10 (witness): a single listed video with a constant, present lookup. -/
theorem C10_witness :
    (∀ vid, getVideoStats ((fun (_ : String) =>
        (⟨some [⟨"v1", ⟨"t", "d", "p", Json.obj []⟩, ⟨"1", "2"⟩⟩]⟩ : VideosListResponse))
      vid) ≠ none) ∧
      ((runOld [⟨"v1"⟩]
            (fun _ => ⟨some [⟨"v1", ⟨"t", "d", "p", Json.obj []⟩, ⟨"1", "2"⟩⟩]⟩)
            "2026-01-01T00:00:00.000Z").formattedStats
          = (run (fun _ => [⟨"v1"⟩])
              (fun _ => fun _ => ⟨some [⟨"v1", ⟨"t", "d", "p", Json.obj []⟩, ⟨"1", "2"⟩⟩]⟩)
              "2026-01-01T00:00:00.000Z").formattedStats ∧
        (runOld [⟨"v1"⟩]
            (fun _ => ⟨some [⟨"v1", ⟨"t", "d", "p", Json.obj []⟩, ⟨"1", "2"⟩⟩]⟩)
            "2026-01-01T00:00:00.000Z").writes
          = (run (fun _ => [⟨"v1"⟩])
              (fun _ => fun _ => ⟨some [⟨"v1", ⟨"t", "d", "p", Json.obj []⟩, ⟨"1", "2"⟩⟩]⟩)
              "2026-01-01T00:00:00.000Z").writes) := by
  have hp : ∀ vid : String, getVideoStats ((fun (_ : String) =>
      (⟨some [⟨"v1", ⟨"t", "d", "p", Json.obj []⟩, ⟨"1", "2"⟩⟩]⟩ : VideosListResponse))
    vid) ≠ none := by
    intro vid
    simp [getVideoStats]
  exact ⟨hp, C10 _ _ _ hp⟩
